import Mathlib

/-
Verification of the GraphIt static structure analyzer and flow synthesizer.

The definitions below are a shallow embedding of the JavaScript source:
the CodeAnalyzer (scanner, extractor, call-graph resolution, importance
scoring, selection) and the FlowchartGenerator (local diagram synthesis,
generative augmentation with fallback, API-error classification).
JavaScript strings are Lean Strings, JS arrays are Lean Lists, JS numbers
holding integer counts and scores are Lean Int or Nat, and JS Map objects
are modelled as insertion-ordered association lists with replace-on-set
semantics (jsMapInsert below), which matches the observable behaviour of
the ECMAScript Map used by the source.
-/

set_option maxRecDepth 100000

namespace GraphIt

/-! String utilities mirroring the JavaScript string operations used by the
source (toLowerCase on ASCII identifiers, includes, startsWith, and the
specific regex counts of calculateDecisionComplexity). -/

/-- ASCII lower-casing of one character; the identifiers and pattern
vocabularies handled by the analyzer are ASCII, where this agrees with
the JavaScript toLowerCase. -/
def asciiLowerChar (c : Char) : Char :=
  if 'A' ≤ c ∧ c ≤ 'Z' then Char.ofNat (c.toNat + 32) else c

/-- ASCII upper-casing of one character (used by cleanFunctionName). -/
def asciiUpperChar (c : Char) : Char :=
  if 'a' ≤ c ∧ c ≤ 'z' then Char.ofNat (c.toNat - 32) else c

/-- Model of the JavaScript String.prototype.toLowerCase for ASCII text. -/
def lowerStr (s : String) : String := ⟨s.data.map asciiLowerChar⟩

/-- Does the character list start with the given pattern? -/
def listStartsWith : List Char → List Char → Bool
  | [], _ => true
  | _ :: _, [] => false
  | p :: ps, c :: cs => p = c && listStartsWith ps cs

/-- Does the character list contain the pattern as a contiguous sublist? -/
def listContainsSub : List Char → List Char → Bool
  | pat, [] => listStartsWith pat []
  | pat, c :: cs => listStartsWith pat (c :: cs) || listContainsSub pat cs

/-- Model of the JavaScript String.prototype.includes. -/
def strIncludes (s pat : String) : Bool := listContainsSub pat.data s.data

/-- Model of the JavaScript String.prototype.startsWith. -/
def strStartsWith (s pat : String) : Bool := listStartsWith pat.data s.data

/-- Count of non-overlapping occurrences of a doubled token character,
as the global regexes matching the two-character operators count them. -/
def countDoubleTok (t : Char) : List Char → Nat
  | a :: b :: rest =>
    if a = t ∧ b = t then countDoubleTok t rest + 1
    else countDoubleTok t (b :: rest)
  | _ => 0

/-- Is the character one of the comparison-operator characters of the
character class used by calculateDecisionComplexity? -/
def isCmpChar (c : Char) : Bool := c = '<' || c = '>' || c = '=' || c = '!'

/-- Auxiliary scan counting maximal runs of comparison characters;
the flag records whether the previous character was in the class. -/
def countCmpRunsAux : List Char → Bool → Nat
  | [], _ => 0
  | c :: rest, inRun =>
    if isCmpChar c then
      (if inRun then 0 else 1) + countCmpRunsAux rest true
    else countCmpRunsAux rest false

/-- Count of maximal runs of comparison characters in a line, as the
global regex over the comparison character class counts its matches. -/
def countCmpRuns (s : String) : Nat := countCmpRunsAux s.data false

/-- JavaScript whitespace characters relevant to the source regexes. -/
def isWsChar (c : Char) : Bool := c = ' ' || c = '\t' || c = '\n' || c = '\r'

/-- Count of non-overlapping occurrences of a token followed by a
whitespace character; fuel-indexed scan over the character list. -/
def countTokenWsAux (tok : List Char) : Nat → List Char → Nat
  | 0, _ => 0
  | _ + 1, [] => 0
  | fuel + 1, c :: cs =>
    if listStartsWith tok (c :: cs) then
      match (c :: cs).drop tok.length with
      | w :: rest' => if isWsChar w then 1 + countTokenWsAux tok fuel rest' else countTokenWsAux tok fuel cs
      | [] => countTokenWsAux tok fuel cs
    else countTokenWsAux tok fuel cs

/-- Count of occurrences of a keyword followed by whitespace in a line. -/
def countTokenWs (tok : String) (s : String) : Nat :=
  countTokenWsAux tok.data s.data.length s.data

/-- Model of the Node path.extname applied to a bare entry name: the
substring from the last dot, empty when there is no dot or the only dot
is the leading character. -/
def lastDotSuffix : List Char → Option (List Char)
  | [] => none
  | '.' :: rest =>
    match lastDotSuffix rest with
    | some s => some s
    | none => some ('.' :: rest)
  | _ :: rest => lastDotSuffix rest

/-- The extension of a file name, following path.extname. -/
def extname (name : String) : String :=
  match name.data with
  | [] => ""
  | _ :: rest =>
    match lastDotSuffix rest with
    | some s => ⟨s⟩
    | none => ""

/-! The JavaScript Map model: an insertion-ordered association list where
setting an existing key replaces its value in place and setting a fresh
key appends it, exactly the observable iteration behaviour of Map. -/

/-- Map.prototype.set on the association-list model of a JS Map. -/
def jsMapInsert {α : Type} (m : List (String × α)) (k : String) (v : α) :
    List (String × α) :=
  if m.any (fun p => p.1 = k) then
    m.map (fun p => if p.1 = k then (k, v) else p)
  else m ++ [(k, v)]

/-- Map.prototype.values on the model: values in key insertion order. -/
def jsMapValues {α : Type} (m : List (String × α)) : List α := m.map (·.2)

/-! Data model of the analyzer, from the record shapes the source builds. -/

/-- An outgoing call site recorded while a function context is open. -/
structure CallSite where
  function : String
  line : Nat
  context : String
deriving DecidableEq, Repr

/-- An incoming-call entry appended to a callee during call-graph
resolution (the calledBy array of the source records). -/
structure CallerRef where
  caller : String
  file : String
  line : Nat
  context : String
deriving DecidableEq, Repr

/-- The function record built by the per-dialect parsers.  Fields the
Python and generic parsers leave undefined are modelled as their JS
falsy values (false, none, empty). -/
structure FunctionRecord where
  name : String
  file : String
  line : Nat
  owningClass : Option String
  calls : List CallSite
  calledBy : List CallerRef
  type : String
  isConstructor : Bool
  isMethod : Bool
  isExported : Bool
  isEntryPoint : Bool
  isEventHandler : Bool
  isBusinessLogic : Bool
  complexity : Int
  importance : Int
deriving DecidableEq, Repr

/-- A decision point recorded while a function context is open. -/
structure DecisionPoint where
  type : String
  file : String
  line : Nat
  content : String
  function : Option String
  complexity : Int
deriving DecidableEq, Repr

/-! The naming-convention predicates of CodeAnalyzer. -/

/-- The entry-point vocabulary of CodeAnalyzer.isEntryPoint. -/
def entryPatterns : List String :=
  ["main", "init", "__init__", "activate", "start", "run", "execute",
   "constructor", "create", "register", "setup", "configure"]

/-- CodeAnalyzer.isEntryPoint: the lower-cased name contains one of the
entry patterns. -/
def isEntryPointName (funcName : String) : Bool :=
  entryPatterns.any (fun pat => strIncludes (lowerStr funcName) pat)

/-- The event-handler vocabulary of CodeAnalyzer.isEventHandler. -/
def eventPatterns : List String :=
  ["handle", "on", "click", "submit", "change", "load", "ready",
   "resize", "scroll", "hover", "focus", "blur", "keypress"]

/-- CodeAnalyzer.isEventHandler. -/
def isEventHandlerName (funcName : String) : Bool :=
  eventPatterns.any (fun pat => strIncludes (lowerStr funcName) pat)

/-- The business-logic vocabulary of CodeAnalyzer.isBusinessLogic. -/
def businessPatterns : List String :=
  ["process", "calculate", "validate", "transform", "convert",
   "analyze", "generate", "build", "parse", "format", "filter"]

/-- CodeAnalyzer.isBusinessLogic. -/
def isBusinessLogicName (funcName : String) : Bool :=
  businessPatterns.any (fun pat => strIncludes (lowerStr funcName) pat)

/-- The reserved-word list of CodeAnalyzer.isKeyword. -/
def keywordList : List String :=
  ["if", "else", "for", "while", "do", "switch", "case", "break", "continue",
   "return", "try", "catch", "finally", "throw", "new", "this", "super",
   "var", "let", "const", "function", "class", "extends", "implements",
   "import", "export", "from", "default", "async", "await", "yield",
   "true", "false", "null", "undefined", "console", "log", "document",
   "window", "require", "module"]

/-- CodeAnalyzer.isKeyword. -/
def isKeyword (word : String) : Bool := keywordList.contains word

/-! Decision-point detection (CodeAnalyzer.hasDecisionPoint,
getDecisionType, calculateComplexity, calculateDecisionComplexity). -/

/-- CodeAnalyzer.hasDecisionPoint: the line contains one of the
control-flow tokens. -/
def hasDecisionPoint (line : String) : Bool :=
  strIncludes line "if " || strIncludes line "switch" || strIncludes line "case " ||
  strIncludes line "for " || strIncludes line "while " || strIncludes line "?" ||
  strIncludes line "&&" || strIncludes line "||"

/-- CodeAnalyzer.getDecisionType: the kind of a decision line, decided
by the if-chain of the source. -/
def getDecisionType (line : String) : String :=
  if strIncludes line "if " then "conditional"
  else if strIncludes line "switch" then "switch"
  else if strIncludes line "for " || strIncludes line "while " then "loop"
  else if strIncludes line "?" then "ternary"
  else if strIncludes line "&&" || strIncludes line "||" then "logical"
  else "decision"

/-- CodeAnalyzer.calculateComplexity: the per-declaration-line complexity
stored on a function record at creation. -/
def calculateComplexity (line : String) : Int :=
  1 + (countDoubleTok '&' line.data : Int) + (countDoubleTok '|' line.data : Int)
    + (countTokenWs "if" line : Int) + (countTokenWs "for" line : Int)
    + (countTokenWs "while" line : Int)

/-- CodeAnalyzer.calculateDecisionComplexity: the weight stored on a
decision point; doubled-token operators count twice, comparison runs
count once. -/
def calculateDecisionComplexity (line : String) : Int :=
  1 + (countDoubleTok '&' line.data : Int) * 2 + (countDoubleTok '|' line.data : Int) * 2
    + (countCmpRuns line : Int)

/-! Directory scanning (CodeAnalyzer.shouldIgnore, scanCodeFiles,
walkDirectory).  The file system is modelled as a tree whose directories
carry a readability flag: an unreadable directory is one whose listing
throws, which the source catches and logs. -/

/-- The ignored directory names of CodeAnalyzer.shouldIgnore. -/
def ignoredDirsList : List String :=
  ["node_modules", ".git", ".vscode", "dist", "build",
   ".next", ".nuxt", "coverage", ".nyc_output", "logs"]

/-- CodeAnalyzer.shouldIgnore: exact ignored names plus dot-prefixed. -/
def shouldIgnore (name : String) : Bool :=
  ignoredDirsList.contains name || strStartsWith name "."

/-- The extension allow-list of CodeAnalyzer.scanCodeFiles. -/
def codeExtensions : List String :=
  [".js", ".ts", ".py", ".java", ".cs", ".cpp", ".c", ".go", ".rs"]

/-- A file-system entry: a plain file or a directory with a readability
flag and its listed entries. -/
inductive FSEntry where
  | file (name : String)
  | dir (name : String) (readable : Bool) (entries : List FSEntry)

mutual

/-- CodeAnalyzer.walkDirectory on a directory with the given readability
and entries: the depth check precedes the listing, an unreadable listing
is caught and yields nothing, and matching files are analyzed (here:
their paths are collected). -/
def walkDir (dirPath : String) (level : Nat) (readable : Bool)
    (entries : List FSEntry) : List String :=
  if level > 5 then []
  else if readable then walkEntries dirPath level entries
  else []

/-- The per-entry loop body of CodeAnalyzer.walkDirectory. -/
def walkEntries (dirPath : String) (level : Nat) : List FSEntry → List String
  | [] => []
  | .file n :: rest =>
    (if shouldIgnore n then []
     else if codeExtensions.contains (extname n) then [dirPath ++ "/" ++ n] else [])
    ++ walkEntries dirPath level rest
  | .dir n r es :: rest =>
    (if shouldIgnore n then []
     else walkDir (dirPath ++ "/" ++ n) (level + 1) r es)
    ++ walkEntries dirPath level rest

end

/-- The scan entry point: walkDirectory(workspaceRoot, extensions, 0). -/
def walkDirectoryRoot : FSEntry → List String
  | .file _ => []
  | .dir n r es => walkDir n 0 r es

/-- Pure reference collection: every file reachable by at most k further
directory listings below an already-listed directory, regardless of
readability, ignore rules or extension. -/
def filesWithin (dirPath : String) (k : Nat) : List FSEntry → List String
  | [] => []
  | .file n :: rest => (dirPath ++ "/" ++ n) :: filesWithin dirPath k rest
  | .dir n _ es :: rest =>
    (match k with
     | 0 => []
     | k' + 1 => filesWithin (dirPath ++ "/" ++ n) k' es)
    ++ filesWithin dirPath k rest

/-! Call-graph resolution (CodeAnalyzer.analyzeExecutionFlow).  The
source loops over all records, and for every outgoing call pushes an
entry onto the calledBy array of every record whose name equals the
callee name; since the calls arrays are not modified by the loop, each
record's final calledBy is its initial one followed by the entries
contributed by every caller in iteration order. -/

/-- The calledBy entries contributed to a target name by all callers. -/
def callersOf (fns : List FunctionRecord) (targetName : String) : List CallerRef :=
  fns.flatMap (fun a =>
    a.calls.filterMap (fun c =>
      if c.function = targetName then some ⟨a.name, a.file, c.line, c.context⟩
      else none))

/-- CodeAnalyzer.analyzeExecutionFlow as a pure map over the records. -/
def analyzeExecutionFlow (fns : List FunctionRecord) : List FunctionRecord :=
  fns.map (fun f => { f with calledBy := f.calledBy ++ callersOf fns f.name })

/-! Importance scoring (CodeAnalyzer.categorizeByImportance). -/

/-- The lifecycle-name list of categorizeByImportance. -/
def lifecycleNames : List String :=
  ["main", "init", "__init__", "activate", "start", "run"]

/-- The importance score computed by categorizeByImportance for one
record, given the run's decision points. -/
def importanceScore (dps : List DecisionPoint) (f : FunctionRecord) : Int :=
  (if f.isEntryPoint then 10 else 0)
  + (if f.isExported then 5 else 0)
  + (f.calledBy.length : Int) * 2
  + ((dps.filter (fun dp => dp.function = some f.name)).length : Int) * 3
  + (if strIncludes f.type "async" then 3 else 0)
  + (if f.isBusinessLogic then 4 else 0)
  + (if f.isEventHandler then 3 else 0)
  + (if lifecycleNames.contains (lowerStr f.name) then 15 else 0)

/-- CodeAnalyzer.categorizeByImportance as a pure map over the records. -/
def categorizeByImportance (dps : List DecisionPoint)
    (fns : List FunctionRecord) : List FunctionRecord :=
  fns.map (fun f => { f with importance := importanceScore dps f })

/-! Layer classification (CodeAnalyzer.identifyArchitecturalPatterns and
getFunctionLayer). -/

/-- CodeAnalyzer.identifyArchitecturalPatterns: the layer map, in the
insertion order of the source's patterns object. -/
def identifyArchitecturalPatterns (fns : List FunctionRecord) :
    List (String × List FunctionRecord) :=
  [("Entry Points", fns.filter (·.isEntryPoint)),
   ("Controllers", fns.filter (fun f => strIncludes (lowerStr f.name) "controller")),
   ("Services", fns.filter (fun f => strIncludes (lowerStr f.name) "service")),
   ("Models", fns.filter (fun f => strIncludes (lowerStr f.name) "model")),
   ("Utils", fns.filter (fun f =>
      strIncludes (lowerStr f.name) "util" || strIncludes (lowerStr f.name) "helper")),
   ("Event Handlers", fns.filter (·.isEventHandler)),
   ("Business Logic", fns.filter (·.isBusinessLogic))]

/-- CodeAnalyzer.getFunctionLayer: the primary layer of a record. -/
def getFunctionLayer (f : FunctionRecord) : String :=
  if f.isEntryPoint then "Entry Points"
  else if strIncludes (lowerStr f.name) "controller" then "Controllers"
  else if strIncludes (lowerStr f.name) "service" then "Services"
  else if strIncludes (lowerStr f.name) "model" then "Models"
  else if f.isEventHandler then "Event Handlers"
  else if f.isBusinessLogic then "Business Logic"
  else "Utils"

/-! Selection (CodeAnalyzer.getImportantFunctions).  The source sorts
with the stable Array.prototype.sort under the comparator on importance
descending; jsSort below is a stable insertion sort and therefore
produces the same output as any stable sort for the same comparator. -/

/-- Stable insertion of an element before the first list element it
compares ahead of. -/
def jsInsert {α : Type} (le : α → α → Bool) (a : α) : List α → List α
  | [] => [a]
  | b :: l => if le a b then a :: b :: l else b :: jsInsert le a l

/-- Stable sort modelling the JavaScript Array.prototype.sort. -/
def jsSort {α : Type} (le : α → α → Bool) : List α → List α
  | [] => []
  | a :: l => jsInsert le a (jsSort le l)

/-- The comparator (a, b) => b.importance - a.importance: a is placed
before b when its importance is at least b's. -/
def byImportanceDesc (a b : FunctionRecord) : Bool := b.importance ≤ a.importance

/-- The records sorted by importance descending. -/
def sortedByImportance (fns : List FunctionRecord) : List FunctionRecord :=
  jsSort byImportanceDesc fns

/-- The top 8 most important records. -/
def topFunctions (fns : List FunctionRecord) : List FunctionRecord :=
  (sortedByImportance fns).take 8

/-- The layers already covered by the top records (the keys set into
layerRepresentation). -/
def coveredLayers (fns : List FunctionRecord) : List String :=
  (topFunctions fns).map getFunctionLayer

/-- One iteration of the backfill loop over the layer map: an uncovered
non-empty layer contributes its highest-scoring member while fewer than
12 records are selected. -/
def selectStep (covered : List String) (sel : List FunctionRecord)
    (pair : String × List FunctionRecord) : List FunctionRecord :=
  if !(covered.contains pair.1) && !pair.2.isEmpty then
    match (jsSort byImportanceDesc pair.2).head? with
    | some rep => if sel.length < 12 then sel ++ [rep] else sel
    | none => sel
  else sel

/-- The selected list after the top-8 phase and the layer backfill. -/
def selectedFunctions (fns : List FunctionRecord)
    (layers : List (String × List FunctionRecord)) : List FunctionRecord :=
  layers.foldl (selectStep (coveredLayers fns)) (topFunctions fns)

/-- The JS Map keyed on record names built by the final deduplication
of getImportantFunctions. -/
def nameKeyedMap (l : List FunctionRecord) : List (String × FunctionRecord) :=
  l.foldl (fun m f => jsMapInsert m f.name f) []

/-- The final deduplication of getImportantFunctions: a JS Map keyed on
the record name, keeping for each name the last selected record, in
first-insertion key order. -/
def uniqueByName (l : List FunctionRecord) : List FunctionRecord :=
  jsMapValues (nameKeyedMap l)

/-- CodeAnalyzer.getImportantFunctions. -/
def getImportantFunctions (fns : List FunctionRecord)
    (layers : List (String × List FunctionRecord)) : List FunctionRecord :=
  (uniqueByName (selectedFunctions fns layers)).take 12

/-! The extraction scan state machine of parseJavaScript and parsePython,
at the granularity of its registry updates.  A ScanLine records what the
per-line regex matching of the source found on one line: an optional
class declaration (captured name and export flag) and an optional
function declaration (the first matching, non-keyword captured name).
The regex matching itself is abstracted because the claims settled over
this model concern only the class-registry discipline those matches
trigger.  The source holds currentClass as an object reference and
pushes method names into that object; since every assignment of
currentClass registers the same object into the classes Map under its
name, and files are scanned one at a time, the referenced object is
always the registry entry at that name, so the model writes the method
through the registry instead. -/

/-- The ClassRecord shape built by the parsers (parsePython leaves
isExported undefined, modelled as false). -/
structure PClassRecord where
  name : String
  file : String
  line : Nat
  methods : List String
  isExported : Bool
deriving DecidableEq, Repr

/-- The per-line match outcome of the extraction scan. -/
structure ScanLine where
  classDecl : Option (String × Bool)
  funcDecl : Option String
deriving DecidableEq, Repr

/-- The scan state: the class registry (shared across files) and the
current-class context (local to one file's scan). -/
structure ScanState where
  classes : List (String × PClassRecord)
  currentClass : Option String
deriving DecidableEq, Repr

/-- Append a method name to the registry record with the given name
(the currentClass.methods.push of the source, written through the
registry, see above). -/
def pushMethod (m : List (String × PClassRecord)) (cn fname : String) :
    List (String × PClassRecord) :=
  m.map (fun p =>
    if p.1 = cn then (p.1, { p.2 with methods := p.2.methods ++ [fname] }) else p)

/-- One line of the extraction scan: a class match registers a fresh
record and opens its context, then a function match on the same pass
attributes a method to the open context. -/
def stepLine (file : String) (lineNo : Nat) (st : ScanState) (l : ScanLine) :
    ScanState :=
  let st1 : ScanState :=
    match l.classDecl with
    | some nx =>
      { st with
        classes := jsMapInsert st.classes nx.1 ⟨nx.1, file, lineNo, [], nx.2⟩,
        currentClass := some nx.1 }
    | none => st
  match l.funcDecl with
  | some fname =>
    match st1.currentClass with
    | some cn => { st1 with classes := pushMethod st1.classes cn fname }
    | none => st1
  | none => st1

/-- The per-file line loop, numbering lines from the given index. -/
def scanFileLines (file : String) : Nat → ScanState → List ScanLine → ScanState
  | _, st, [] => st
  | i, st, l :: rest => scanFileLines file (i + 1) (stepLine file i st l) rest

/-- One file's scan: currentClass starts null for each file, the
registry persists. -/
def scanFile (classes : List (String × PClassRecord))
    (f : String × List ScanLine) : List (String × PClassRecord) :=
  (scanFileLines f.1 1 ⟨classes, none⟩ f.2).classes

/-- The whole-tree scan over the analyzed files in order. -/
def scanFiles (files : List (String × List ScanLine)) :
    List (String × PClassRecord) :=
  files.foldl scanFile []

/-! FlowchartGenerator: deterministic local synthesis. -/

/-- Concatenation of a list of strings. -/
def strConcat (l : List String) : String := l.foldl (· ++ ·) ""

/-- FlowchartGenerator.cleanFunctionName, first replace: strip one
leading double underscore. -/
def stripLeadUnderscores : List Char → List Char
  | '_' :: '_' :: rest => rest
  | l => l

/-- Second replace of cleanFunctionName: strip one trailing double
underscore. -/
def stripTrailUnderscores (l : List Char) : List Char :=
  (stripLeadUnderscores l.reverse).reverse

/-- Fourth replace of cleanFunctionName: put a space between a lowercase
letter and the uppercase letter following it. -/
def camelSpace : List Char → List Char
  | [] => []
  | [c] => [c]
  | c1 :: c2 :: rest =>
    if ('a' ≤ c1 ∧ c1 ≤ 'z') ∧ ('A' ≤ c2 ∧ c2 ≤ 'Z') then
      c1 :: ' ' :: camelSpace (c2 :: rest)
    else c1 :: camelSpace (c2 :: rest)

/-- A JavaScript word character (the regex word class). -/
def isWordChar (c : Char) : Bool :=
  ('a' ≤ c && c ≤ 'z') || ('A' ≤ c && c ≤ 'Z') || ('0' ≤ c && c ≤ '9') || c = '_'

/-- Fifth replace of cleanFunctionName: uppercase every word character
standing at a word boundary; the flag records whether the previous
character was a word character. -/
def upperAtBoundary : List Char → Bool → List Char
  | [], _ => []
  | c :: rest, prevWord =>
    (if isWordChar c && !prevWord then asciiUpperChar c else c)
      :: upperAtBoundary rest (isWordChar c)

/-- FlowchartGenerator.cleanFunctionName. -/
def cleanFunctionName (name : String) : String :=
  ⟨upperAtBoundary
    (camelSpace
      ((stripTrailUnderscores (stripLeadUnderscores name.data)).map
        (fun c => if c = '_' then ' ' else c)))
    false⟩

/-- FlowchartGenerator.hasDecisionLogic. -/
def hasDecisionLogic (f : FunctionRecord) : Bool :=
  f.importance > 8 ||
  strIncludes (lowerStr f.name) "validate" ||
  strIncludes (lowerStr f.name) "check" ||
  strIncludes (lowerStr f.name) "verify" ||
  strIncludes (lowerStr f.name) "handle"

/-- FlowchartGenerator.getDecisionLabel. -/
def getDecisionLabel (funcName : String) : String :=
  if strIncludes (lowerStr funcName) "validate" then "Valid input?"
  else if strIncludes (lowerStr funcName) "check" then "Check passed?"
  else if strIncludes (lowerStr funcName) "verify" then "Verification OK?"
  else if strIncludes (lowerStr funcName) "handle" then "Handle request?"
  else if strIncludes (lowerStr funcName) "process" then "Process data?"
  else "Continue execution?"

/-- The sequential node identifier of the generators:
String.fromCharCode(65 + counter). -/
def nodeIdOf (n : Nat) : String := ⟨[Char.ofNat (65 + n)]⟩

/-- FlowchartGenerator.addProfessionalStyling, the literal styling
block appended to every locally generated flowchart. -/
def addProfessionalStyling : String :=
  "\n    %% Professional semitransparent gray styling for dark mode compatibility\n"
  ++ "    classDef default fill:rgba(128,128,128,0.15),stroke:rgba(128,128,128,0.6),stroke-width:2px,color:rgba(200,200,200,0.9),font-weight:500\n"
  ++ "    classDef entryPoint fill:rgba(128,128,128,0.2),stroke:rgba(128,128,128,0.8),stroke-width:3px,color:rgba(200,200,200,0.95),font-weight:600\n"
  ++ "    classDef process fill:rgba(112,112,112,0.12),stroke:rgba(128,128,128,0.6),stroke-width:2px,color:rgba(200,200,200,0.9),font-weight:500\n"
  ++ "    classDef decision fill:rgba(96,96,96,0.15),stroke:rgba(128,128,128,0.7),stroke-width:2px,color:rgba(200,200,200,0.9),font-weight:500\n"
  ++ "    classDef service fill:rgba(120,120,120,0.12),stroke:rgba(128,128,128,0.6),stroke-width:2px,color:rgba(200,200,200,0.9),font-weight:500\n"
  ++ "    classDef result fill:rgba(104,104,104,0.15),stroke:rgba(128,128,128,0.7),stroke-width:2px,color:rgba(200,200,200,0.9),font-weight:500\n"
  ++ "    classDef complete fill:rgba(128,128,128,0.2),stroke:rgba(128,128,128,0.8),stroke-width:3px,color:rgba(200,200,200,0.95),font-weight:600\n"
  ++ "\n    style A fill:rgba(128,128,128,0.2),stroke:rgba(128,128,128,0.8),stroke-width:3px,color:rgba(200,200,200,0.95)\n"
  ++ "    style B fill:rgba(112,112,112,0.12),stroke:rgba(128,128,128,0.6),stroke-width:2px,color:rgba(200,200,200,0.9)\n"
  ++ "    style C fill:rgba(96,96,96,0.15),stroke:rgba(128,128,128,0.7),stroke-width:2px,color:rgba(200,200,200,0.9)"

/-- Remove every whitespace character (the replace of layer names used
when naming subgraphs). -/
def removeSpaces (s : String) : String := ⟨s.data.filter (fun c => !isWsChar c)⟩

/-- The function-analysis payload handed to the generators, the shape
returned by CodeAnalyzer.analyzeFunctions that they consume. -/
structure FunctionAnalysis where
  functions : List FunctionRecord
  decisionPoints : List DecisionPoint
  layerAnalysis : List (String × List FunctionRecord)
deriving Repr

/-- The analysisData consumed by the repository-level generator; it only
reads the functionAnalysis field, which may be absent. -/
structure AnalysisData where
  functionAnalysis : Option FunctionAnalysis
deriving Repr

/-- FlowchartGenerator.identifyLayers. -/
def identifyLayers (fns : List FunctionRecord) :
    List (String × List FunctionRecord) :=
  ([("Entry Layer", fun f => f.isEntryPoint),
    ("Business Logic", fun f => f.isBusinessLogic),
    ("Event Handling", fun f => f.isEventHandler),
    ("Utility Layer", fun f => strIncludes (lowerStr f.name) "util")]
    : List (String × (FunctionRecord → Bool))).filterMap
    (fun p =>
      let lf := fns.filter p.2
      if lf.isEmpty then none else some (p.1, lf))

/-- FlowchartGenerator.addLayeredSubgraphs: appends subgraph blocks to
its flowchart parameter and returns the appended text.  Note the call
site in generateLocalFlowchart discards this value, since the source
method appends to a by-value string parameter. -/
def addLayeredSubgraphs (flowchart : String)
    (layers : List (String × List FunctionRecord)) : String :=
  layers.foldl
    (fun fc p =>
      if p.2.length > 2 then
        fc ++ "\n    subgraph " ++ removeSpaces p.1 ++ "[\"" ++ p.1 ++ "\"]\n"
          ++ strConcat ((p.2.take 3).map
              (fun f => "        " ++ cleanFunctionName f.name ++ "\n"))
          ++ "    end\n"
      else fc)
    flowchart

/-- FlowchartGenerator.addArchitecturalLayers.  Its layerAnalysis
parameter is accepted but unread by the source body, which regroups the
functions directly. -/
def addArchitecturalLayers (layerAnalysis : List (String × List FunctionRecord))
    (functions : List FunctionRecord) : String :=
  let layers : List (String × List FunctionRecord) :=
    [("Entry Layer", functions.filter (fun f => f.isEntryPoint || f.importance > 12)),
     ("Business Logic Layer", functions.filter (·.isBusinessLogic)),
     ("Service Layer", functions.filter (fun f => strIncludes (lowerStr f.name) "service")),
     ("Data Layer", functions.filter (fun f =>
        strIncludes (lowerStr f.name) "data" || strIncludes (lowerStr f.name) "store"))]
  "\n    %% Architectural Layers\n"
  ++ strConcat (layers.map (fun p =>
      if p.2.length > 1 then
        "    subgraph " ++ removeSpaces p.1 ++ "[\"" ++ p.1 ++ "\"]\n"
        ++ strConcat ((p.2.take 3).map
            (fun f => "        " ++ cleanFunctionName f.name ++ "\n"))
        ++ "    end\n\n"
      else ""))

/-- The running state of the sequential chain emission: the node-id
counter, the previous node id, and the accumulated flowchart text. -/
structure ChainState where
  counter : Nat
  prev : String
  acc : String
deriving Repr

/-- The loop body of generateLocalFlowchart over the key functions.  A
node id is allocated every iteration; the decision branch allocates
three more and leaves the first unused, exactly as the source does. -/
def localChainStep (st : ChainState) (f : FunctionRecord) : ChainState :=
  let nodeId := nodeIdOf st.counter
  let cleanName := cleanFunctionName f.name
  if f.importance > 5 && hasDecisionLogic f then
    let decisionId := nodeIdOf (st.counter + 1)
    let yesPath := nodeIdOf (st.counter + 2)
    let noPath := nodeIdOf (st.counter + 3)
    { counter := st.counter + 4,
      prev := yesPath,
      acc := st.acc
        ++ "    " ++ st.prev ++ " --> " ++ decisionId ++ "\x7b" ++ getDecisionLabel f.name ++ "\x7d\n"
        ++ "    " ++ decisionId ++ " -->|Yes| " ++ yesPath ++ "[" ++ cleanName ++ "]\n"
        ++ "    " ++ decisionId ++ " -->|No| " ++ noPath ++ "[Handle alternative]\n" }
  else
    { counter := st.counter + 1,
      prev := nodeId,
      acc := st.acc ++ "    " ++ st.prev ++ " --> " ++ nodeId ++ "[" ++ cleanName ++ "]\n" }

/-- FlowchartGenerator.generateLocalFlowchart.  The layer subgraph text
computed through addLayeredSubgraphs is dropped by the source (the
method appends to a by-value parameter), so the output goes from the
execution chain straight to the result node and the styling. -/
def generateLocalFlowchart (d : AnalysisData) : String :=
  let header :=
    "flowchart TD\n"
    ++ "    " ++ nodeIdOf 0 ++ "[User opens VSCode extension]\n\n"
    ++ "    %% Main initialization\n"
    ++ "    " ++ nodeIdOf 0 ++ " --> " ++ nodeIdOf 1 ++ "[Extension activation]\n"
  let st1 : ChainState :=
    match d.functionAnalysis with
    | some fa =>
      if fa.functions.length > 0 then
        (fa.functions.take 8).foldl localChainStep
          ⟨2, nodeIdOf 1, header ++ "\n    %% Core execution flow\n"⟩
      else ⟨2, nodeIdOf 1, header⟩
    | none => ⟨2, nodeIdOf 1, header⟩
  st1.acc ++ "\n    %% Result processing\n    " ++ nodeIdOf st1.counter
    ++ "[Generate flowchart result]\n" ++ addProfessionalStyling

/-- The loop body of generateLocalFunctionFlowchart over the execution
functions; every function passing hasDecisionLogic becomes a decision
diamond whose No branch is a Handle error node. -/
def funcChainStep (st : ChainState) (f : FunctionRecord) : ChainState :=
  let nodeId := nodeIdOf st.counter
  let cleanName := cleanFunctionName f.name
  if hasDecisionLogic f then
    let decisionId := nodeIdOf (st.counter + 1)
    let truePath := nodeIdOf (st.counter + 2)
    let falsePath := nodeIdOf (st.counter + 3)
    { counter := st.counter + 4,
      prev := truePath,
      acc := st.acc
        ++ "    " ++ st.prev ++ " --> " ++ decisionId ++ "\x7b" ++ getDecisionLabel f.name ++ "\x7d\n"
        ++ "    " ++ decisionId ++ " -->|Yes| " ++ truePath ++ "[" ++ cleanName ++ "]\n"
        ++ "    " ++ decisionId ++ " -->|No| " ++ falsePath ++ "[Handle error]\n" }
  else
    { counter := st.counter + 1,
      prev := nodeId,
      acc := st.acc ++ "    " ++ st.prev ++ " --> " ++ nodeId ++ "[" ++ cleanName ++ "]\n" }

/-- FlowchartGenerator.generateLocalFunctionFlowchart.  When no entry
function can be chosen (the functions list is empty) the whole entry,
execution and result block is skipped. -/
def generateLocalFunctionFlowchart (fa : FunctionAnalysis) : String :=
  let header := "flowchart TD\n" ++ "    %% User Entry Point\n"
  let entryFunction :=
    ((fa.functions.find? (fun f => f.isEntryPoint && f.importance > 10)).orElse
      (fun _ => fa.functions.find? (fun f => strIncludes f.name "activate"))).orElse
      (fun _ => fa.functions.head?)
  let mainPart :=
    match entryFunction with
    | none => header
    | some ef =>
      let s1 := header
        ++ "    " ++ nodeIdOf 0 ++ "[User triggers " ++ cleanFunctionName ef.name
        ++ "] --> " ++ nodeIdOf 1 ++ "[" ++ cleanFunctionName ef.name ++ "]\n\n"
        ++ "    %% Main execution flow\n"
      let execFns :=
        (fa.functions.filter (fun f => f.isBusinessLogic || f.importance > 8)).take 6
      let st := execFns.foldl funcChainStep ⟨2, nodeIdOf 1, s1⟩
      st.acc ++ "\n    %% Result processing\n    " ++ st.prev ++ " --> "
        ++ nodeIdOf st.counter ++ "[Process results]\n    " ++ nodeIdOf st.counter
        ++ " --> " ++ nodeIdOf (st.counter + 1) ++ "[Return to user]\n"
  mainPart ++ addArchitecturalLayers fa.layerAnalysis fa.functions
    ++ addProfessionalStyling

/-! The generative augmenter (FlowchartGenerator.generateClaudeFlowchart
and the panel-level variant in extension.js) and its error handling.
The external service call is modelled by its outcome; the mermaid-block
extraction regex applied to a successful response is abstracted as a
function parameter, since no claim depends on its content. -/

/-- The error object surfaced by the external generative-text service. -/
structure ApiError where
  message : String
  etype : String
  status : Option Int
  statusCode : Option Int
deriving DecidableEq, Repr

/-- The outcome of the single in-flight service request. -/
inductive ApiOutcome where
  | success (text : String)
  | failure (error : ApiError)

/-- FlowchartGenerator.isInsufficientCreditError. -/
def isInsufficientCreditError (e : ApiError) : Bool :=
  strIncludes (lowerStr e.message) "insufficient" ||
  strIncludes (lowerStr e.message) "credit" ||
  strIncludes (lowerStr e.message) "billing" ||
  strIncludes (lowerStr e.message) "payment" ||
  strIncludes (lowerStr e.etype) "billing" ||
  e.status = some 402 || e.statusCode = some 402

/-- FlowchartGenerator.isRateLimitError. -/
def isRateLimitError (e : ApiError) : Bool :=
  strIncludes (lowerStr e.message) "rate limit" ||
  strIncludes (lowerStr e.message) "too many requests" ||
  strIncludes (lowerStr e.etype) "rate_limit" ||
  e.status = some 429 || e.statusCode = some 429

/-- FlowchartGenerator.isAuthenticationError. -/
def isAuthenticationError (e : ApiError) : Bool :=
  strIncludes (lowerStr e.message) "unauthorized" ||
  strIncludes (lowerStr e.message) "authentication" ||
  strIncludes (lowerStr e.message) "invalid api key" ||
  strIncludes (lowerStr e.etype) "authentication" ||
  e.status = some 401 || e.statusCode = some 401

/-- FlowchartGenerator.isQuotaExceededError. -/
def isQuotaExceededError (e : ApiError) : Bool :=
  strIncludes (lowerStr e.message) "quota" ||
  strIncludes (lowerStr e.message) "limit exceeded" ||
  strIncludes (lowerStr e.message) "usage limit"

/-- The classification assigned by FlowchartGenerator.handleApiError,
in its if-chain priority order. -/
def notificationType (e : ApiError) : String :=
  if isInsufficientCreditError e then "insufficient-credits"
  else if isRateLimitError e then "rate-limit"
  else if isAuthenticationError e then "auth-error"
  else if isQuotaExceededError e then "quota-exceeded"
  else "generic"

/-- FlowchartGenerator.generateClaudeFlowchart: on success the mermaid
block is extracted (or the local output returned when the response has
none); the catch block classifies and notifies, then returns the local
output.  A thrown error would be an error value; this function never
produces one. -/
def fgGenerateClaudeFlowchart (extract : String → Option String)
    (o : ApiOutcome) (d : AnalysisData) : Except ApiError String :=
  match o with
  | .success t =>
    match extract t with
    | some m => .ok m
    | none => .ok (generateLocalFlowchart d)
  | .failure _ => .ok (generateLocalFlowchart d)

/-- FlowchartGenerator.generateUnifiedFlowchart: the dispatch between
the augmenter and the local generator, with enabled standing for the
client being configured and Claude generation turned on. -/
def fgGenerateUnifiedFlowchart (extract : String → Option String)
    (enabled : Bool) (o : ApiOutcome) (d : AnalysisData) : Except ApiError String :=
  if enabled then fgGenerateClaudeFlowchart extract o d
  else .ok (generateLocalFlowchart d)

/-- The configuration read by the panel-level generateClaudeFlowchart in
extension.js. -/
structure PanelConfig where
  clientAvailable : Bool
  enableClaudeGeneration : Bool
  fallbackToLocal : Bool
deriving DecidableEq, Repr

/-- GraphItPanel.generateClaudeFlowchart (extension.js): the local
generator it falls back to (generateMermaidFlowchart) and the response
parsing are abstracted as parameters; its catch block falls back only
when config.flowchart.fallbackToLocal holds, and rethrows otherwise. -/
def panelGenerateClaudeFlowchart (localGen : AnalysisData → String)
    (extract : String → Option String) (hasGraphTD : String → Bool)
    (cfg : PanelConfig) (o : ApiOutcome) (d : AnalysisData) :
    Except ApiError String :=
  if !(cfg.clientAvailable && cfg.enableClaudeGeneration) then .ok (localGen d)
  else
    match o with
    | .success t =>
      match extract t with
      | some m => .ok m
      | none => if hasGraphTD t then .ok t else .ok (localGen d)
    | .failure e => if cfg.fallbackToLocal then .ok (localGen d) else .error e

/-! Spec-side definitions.  These follow the words of the specification
claims (not the source) and exist to be compared against the source
embedding above. -/

/-- The lifecycle-name list as the claim states it: exactly
main/init/activate/start/run. -/
def specLifecycleNames : List String := ["main", "init", "activate", "start", "run"]

/-- The importance score as the claim states it: the weighted sum of
the eight signals, with the lifecycle bonus for specLifecycleNames. -/
def specImportanceScore (dps : List DecisionPoint) (f : FunctionRecord) : Int :=
  List.sum
    [(if f.isEntryPoint then (10 : Int) else 0),
     (if f.isExported then 5 else 0),
     2 * (f.calledBy.length : Int),
     3 * ((dps.filter (fun dp => dp.function = some f.name)).length : Int),
     (if strIncludes f.type "async" then 3 else 0),
     (if f.isBusinessLogic then 4 else 0),
     (if f.isEventHandler then 3 else 0),
     (if specLifecycleNames.contains (lowerStr f.name) then 15 else 0)]

/-- The importance score as amended: identical to the claim's weighted
sum except that the code's lifecycle list also contains the Python
constructor name, so the bonus applies to lifecycleNames. -/
def amendedImportanceScore (dps : List DecisionPoint) (f : FunctionRecord) : Int :=
  List.sum
    [(if f.isEntryPoint then (10 : Int) else 0),
     (if f.isExported then 5 else 0),
     2 * (f.calledBy.length : Int),
     3 * ((dps.filter (fun dp => dp.function = some f.name)).length : Int),
     (if strIncludes f.type "async" then 3 else 0),
     (if f.isBusinessLogic then 4 else 0),
     (if f.isEventHandler then 3 else 0),
     (if lifecycleNames.contains (lowerStr f.name) then 15 else 0)]

/-- The decision-point weight as the claim states it: 1 plus the count
of logical and comparison operators on the line. -/
def specDecisionWeight (line : String) : Int :=
  1 + ((countDoubleTok '&' line.data + countDoubleTok '|' line.data
        + countCmpRuns line : Nat) : Int)

/-- The decision-point weight as amended: the logical operators count
twice, the comparison runs once. -/
def amendedDecisionWeight (line : String) : Int :=
  1 + 2 * ((countDoubleTok '&' line.data + countDoubleTok '|' line.data : Nat) : Int)
    + (countCmpRuns line : Int)

/-- The kind priority table of the claim: conditional, then switch,
then loop, then ternary, then logical, each with its trigger tokens. -/
def kindRules : List (List String × String) :=
  [(["if "], "conditional"),
   (["switch"], "switch"),
   (["for ", "while "], "loop"),
   (["?"], "ternary"),
   (["&&", "||"], "logical")]

/-- The decision kind as amended: the first rule of the priority table
whose token matches, with the source's fallback kind when none does
(reachable because a line holding only a case token is still recorded). -/
def amendedDecisionKind (line : String) : String :=
  ((kindRules.find? (fun r => r.1.any (fun t => strIncludes line t))).map (·.2)).getD
    "decision"

/-! Concrete fixtures used by counterexamples and witnesses. -/

/-- A record as parseJavaScript builds it for a plain named function
with no recorded calls, its boolean flags computed by the source's
naming predicates. -/
def mkParsedRecord (nm fl : String) : FunctionRecord :=
  { name := nm, file := fl, line := 1, owningClass := none, calls := [],
    calledBy := [], type := "function", isConstructor := nm = "constructor",
    isMethod := false, isExported := false,
    isEntryPoint := isEntryPointName nm, isEventHandler := isEventHandlerName nm,
    isBusinessLogic := isBusinessLogicName nm, complexity := 1, importance := 0 }

/-- Ten functions with distinct names matching no naming pattern, one
per file. -/
def cexBaseC1 : List FunctionRecord :=
  [mkParsedRecord "aa" "a.js", mkParsedRecord "bb" "b.js",
   mkParsedRecord "cc" "c.js", mkParsedRecord "dd" "d.js",
   mkParsedRecord "ee" "e.js", mkParsedRecord "ff" "f.js",
   mkParsedRecord "gg" "g.js", mkParsedRecord "hh" "h.js",
   mkParsedRecord "ii" "i.js", mkParsedRecord "jj" "j.js"]

/-- The ten functions after call-graph resolution and scoring. -/
def cexFnsC1 : List FunctionRecord :=
  categorizeByImportance [] (analyzeExecutionFlow cexBaseC1)

/-- Three distinct plainly named functions, for the selection witness. -/
def w1FnsC1 : List FunctionRecord :=
  categorizeByImportance []
    (analyzeExecutionFlow
      [mkParsedRecord "aa" "a.js", mkParsedRecord "bb" "b.js",
       mkParsedRecord "cc" "c.js"])

/-- The record parsePython builds for a Python constructor. -/
def pyInitRecord : FunctionRecord :=
  { name := "__init__", file := "m.py", line := 3, owningClass := some "A",
    calls := [], calledBy := [], type := "function", isConstructor := false,
    isMethod := true, isExported := false,
    isEntryPoint := isEntryPointName "__init__",
    isEventHandler := isEventHandlerName "__init__",
    isBusinessLogic := isBusinessLogicName "__init__",
    complexity := 1, importance := 0 }

/-- A caller record holding one recorded outgoing call to setup. -/
def c3Caller : FunctionRecord :=
  { mkParsedRecord "activate" "extension.js" with
    calls := [{ function := "setup", line := 4, context := "setup();" }] }

/-- The callee record named setup, in another file. -/
def c3Callee : FunctionRecord := mkParsedRecord "setup" "lib.js"

/-- The two-record run for the call-graph witness. -/
def c3Fns : List FunctionRecord := [c3Caller, c3Callee]

/-- A service error with no recognizable classification markers. -/
def panelFailError : ApiError :=
  { message := "network failure", etype := "", status := none, statusCode := none }

/-- A panel configuration with the augmenter on and fallback off. -/
def noFallbackConfig : PanelConfig :=
  { clientAvailable := true, enableClaudeGeneration := true, fallbackToLocal := false }

/-- A panel configuration with the augmenter on and fallback on. -/
def fallbackConfig : PanelConfig :=
  { clientAvailable := true, enableClaudeGeneration := true, fallbackToLocal := true }

/-- An analysisData with no function analysis attached. -/
def trivialAnalysisData : AnalysisData := { functionAnalysis := none }

/-- A rate-limited service error carrying only the 429 status. -/
def rateLimitedError : ApiError :=
  { message := "server said no", etype := "", status := some 429, statusCode := none }

/-- An empty function analysis, as produced for an empty directory. -/
def emptyFA : FunctionAnalysis :=
  { functions := [], decisionPoints := [], layerAnalysis := [] }

/-- The analysisData of a run over an empty directory. -/
def emptyAD : AnalysisData := { functionAnalysis := some emptyFA }

/-- Two same-named functions in different files plus a distinct third,
after resolution and scoring, for the deduplication witness. -/
def dupFnsC9 : List FunctionRecord :=
  categorizeByImportance []
    (analyzeExecutionFlow
      [mkParsedRecord "dup" "a.js", mkParsedRecord "dup" "b.js",
       mkParsedRecord "zz" "c.js"])

/-- The later of the two same-named records, as scored. -/
def dupSurvivor : FunctionRecord := mkParsedRecord "dup" "b.js"

/-- A registry holding one class A with no methods, with A's context
open, for the attribution witness. -/
def scanStateW : ScanState :=
  { classes := [("A", { name := "A", file := "a.js", line := 1, methods := [],
                        isExported := false })],
    currentClass := some "A" }

/-! Theorems. -/

/-- C2 counterexample: the record parsePython builds for a Python
constructor named with the double-underscore form scores 25 under the
code (entry-point bonus 10 plus lifecycle bonus 15, since the code's
lifecycle list contains that name), while the claim's weighted sum,
whose lifecycle list is exactly main/init/activate/start/run, gives
only 10. -/
theorem C2_importance_cex :
    importanceScore [] pyInitRecord = 25
    ∧ specImportanceScore [] pyInitRecord = 10
    ∧ importanceScore [] pyInitRecord ≠ specImportanceScore [] pyInitRecord := by
  refine ⟨by decide, by decide, by decide⟩

/-- C2 (amended): every record's importance equals the claim's weighted
sum with the lifecycle list extended by the Python constructor name, and
the score is never negative. -/
theorem C2_importance_weighted_sum :
    ∀ (dps : List DecisionPoint) (f : FunctionRecord),
      importanceScore dps f = amendedImportanceScore dps f
      ∧ 0 ≤ importanceScore dps f := by
  intro dps f
  constructor
  · simp only [importanceScore, amendedImportanceScore, List.sum_cons, List.sum_nil]
    ring
  · unfold importanceScore
    split_ifs <;> omega

/-- C3: after call-graph resolution, every recorded outgoing call from a
record a to a name matched by a record b appears in b's calledBy as an
entry carrying the caller's name, the caller's file, and the call line. -/
theorem C3_call_graph_symmetry :
    ∀ (fns : List FunctionRecord) (a : FunctionRecord) (c : CallSite)
      (b : FunctionRecord),
      a ∈ fns → c ∈ a.calls → b ∈ analyzeExecutionFlow fns → b.name = c.function →
      ({ caller := a.name, file := a.file, line := c.line, context := c.context }
        : CallerRef) ∈ b.calledBy := by
  intro fns a c b ha hc hb hname
  unfold analyzeExecutionFlow at hb
  rcases List.mem_map.mp hb with ⟨b0, hb0, rfl⟩
  apply List.mem_append.mpr
  right
  unfold callersOf
  apply List.mem_flatMap.mpr
  refine ⟨a, ha, List.mem_filterMap.mpr ⟨c, hc, ?_⟩⟩
  have hcf : c.function = b0.name := by
    have : b0.name = c.function := hname
    exact this.symm
  rw [if_pos hcf]

/-- C3 witness: in the two-record run where activate calls setup, the
resolved setup record's calledBy holds the entry for activate. -/
theorem C3_call_graph_symmetry_w :
    ({ caller := "activate", file := "extension.js", line := 4, context := "setup();" }
      : CallerRef)
    ∈ ({ c3Callee with
          calledBy := [{ caller := "activate", file := "extension.js", line := 4,
                         context := "setup();" }] } : FunctionRecord).calledBy :=
  C3_call_graph_symmetry c3Fns c3Caller
    { function := "setup", line := 4, context := "setup();" } _
    (by decide) (by decide) (by decide) (by decide)

/-- C4 counterexample: with the augmenter configured on and
config.flowchart.fallbackToLocal off, the panel-level
generateClaudeFlowchart of extension.js rethrows the service error
instead of returning diagram text, so a failure of the service does
propagate past the augmentation step's boundary. -/
theorem C4_augmenter_cex :
    panelGenerateClaudeFlowchart (fun _ => "graph TD\n") (fun _ => none)
      (fun _ => false) noFallbackConfig (.failure panelFailError)
      trivialAnalysisData
      = .error panelFailError := rfl

/-- C4 (amended): the FlowchartGenerator augmenter returns the
deterministic local diagram on any service failure and never raises;
the panel-level variant does so exactly when fallbackToLocal is on; and
with the augmenter disabled, or enabled and failing, the unified
dispatch still returns a diagram, the deterministic one. -/
theorem C4_augmenter_fallback :
    (∀ (extract : String → Option String) (d : AnalysisData) (e : ApiError),
       fgGenerateClaudeFlowchart extract (.failure e) d
         = .ok (generateLocalFlowchart d))
    ∧ (∀ (lg : AnalysisData → String) (extract : String → Option String)
        (tdq : String → Bool) (cfg : PanelConfig) (d : AnalysisData) (e : ApiError),
        cfg.fallbackToLocal = true →
        panelGenerateClaudeFlowchart lg extract tdq cfg (.failure e) d = .ok (lg d))
    ∧ (∀ (extract : String → Option String) (o : ApiOutcome) (d : AnalysisData),
        fgGenerateUnifiedFlowchart extract false o d
          = .ok (generateLocalFlowchart d))
    ∧ (∀ (extract : String → Option String) (e : ApiError) (d : AnalysisData),
        fgGenerateUnifiedFlowchart extract true (.failure e) d
          = .ok (generateLocalFlowchart d)) := by
  refine ⟨fun _ _ _ => rfl, ?_, fun _ _ _ => rfl, fun _ _ _ => rfl⟩
  intro lg extract tdq cfg d e hfb
  unfold panelGenerateClaudeFlowchart
  by_cases hc : cfg.clientAvailable && cfg.enableClaudeGeneration <;> simp [hc, hfb]

/-- C4 witness: with fallback on, the panel-level variant maps the same
failing outcome to the local diagram. -/
theorem C4_augmenter_fallback_w :
    panelGenerateClaudeFlowchart (fun _ => "graph TD\n") (fun _ => none)
      (fun _ => false) fallbackConfig (.failure panelFailError)
      trivialAnalysisData
      = .ok "graph TD\n" :=
  C4_augmenter_fallback.2.1 (fun _ => "graph TD\n") (fun _ => none) (fun _ => false)
    fallbackConfig trivialAnalysisData panelFailError rfl

/-- C5: handleApiError assigns exactly one of the five classifications,
deciding them in the fixed priority order insufficient-credit, then
rate-limit, then authentication, then quota-exceeded, then generic;
status 402 yields insufficient-credit outright, 429 yields rate-limit
when no higher-priority classifier matches, 401 yields authentication
when no higher-priority classifier matches; and every failure, whatever
its classification, recovers by returning the deterministic local
flowchart. -/
theorem C5_error_classification :
    (∀ e : ApiError,
       notificationType e = "insufficient-credits"
       ∨ notificationType e = "rate-limit"
       ∨ notificationType e = "auth-error"
       ∨ notificationType e = "quota-exceeded"
       ∨ notificationType e = "generic")
    ∧ (∀ e : ApiError, e.status = some 402 ∨ e.statusCode = some 402 →
        notificationType e = "insufficient-credits")
    ∧ (∀ e : ApiError, e.status = some 429 ∨ e.statusCode = some 429 →
        isInsufficientCreditError e = false →
        notificationType e = "rate-limit")
    ∧ (∀ e : ApiError, e.status = some 401 ∨ e.statusCode = some 401 →
        isInsufficientCreditError e = false → isRateLimitError e = false →
        notificationType e = "auth-error")
    ∧ (∀ (extract : String → Option String) (d : AnalysisData) (e : ApiError),
        fgGenerateClaudeFlowchart extract (.failure e) d
          = .ok (generateLocalFlowchart d)) := by
  refine ⟨?_, ?_, ?_, ?_, fun _ _ _ => rfl⟩
  · intro e
    unfold notificationType
    split_ifs <;> simp
  · intro e he
    have h1 : isInsufficientCreditError e = true := by
      unfold isInsufficientCreditError
      rcases he with h | h <;> simp [h]
    unfold notificationType
    simp [h1]
  · intro e he hnc
    have h2 : isRateLimitError e = true := by
      unfold isRateLimitError
      rcases he with h | h <;> simp [h]
    unfold notificationType
    simp [hnc, h2]
  · intro e he hnc hnr
    have h3 : isAuthenticationError e = true := by
      unfold isAuthenticationError
      rcases he with h | h <;> simp [h]
    unfold notificationType
    simp [hnc, hnr, h3]

/-- C5 witness: a bare 429 error classifies as rate-limit and its
failure still yields the deterministic local flowchart. -/
theorem C5_error_classification_w :
    notificationType rateLimitedError = "rate-limit"
    ∧ fgGenerateClaudeFlowchart (fun _ => none) (.failure rateLimitedError)
        trivialAnalysisData
        = .ok (generateLocalFlowchart trivialAnalysisData) :=
  ⟨C5_error_classification.2.2.1 rateLimitedError (Or.inl rfl) (by decide),
   C5_error_classification.2.2.2.2 (fun _ => none) trivialAnalysisData rateLimitedError⟩

/-- C6 counterexample: the line holding one logical operator weighs 3
under the code (the doubled-token operators count twice), not the 2 the
claim's 1-plus-operator-count formula gives; and a line holding only a
case token is recorded as a decision point yet receives the fallback
kind, which is outside the claim's five-kind priority list. -/
theorem C6_decision_cex :
    calculateDecisionComplexity "a && b" = 3
    ∧ specDecisionWeight "a && b" = 2
    ∧ hasDecisionPoint "case 1:" = true
    ∧ getDecisionType "case 1:" = "decision"
    ∧ "decision" ∉ ["conditional", "switch", "loop", "ternary", "logical"] := by
  refine ⟨by decide, by decide, by decide, by decide, by decide⟩

/-- C6 (amended): on every line, the recorded kind is the first match
of the priority table conditional, switch, loop, ternary, logical, with
the fallback kind when no table token occurs, and the weight is 1 plus
twice the count of logical operators plus the count of comparison
operator runs. -/
theorem C6_decision_kind_weight :
    ∀ line : String,
      getDecisionType line = amendedDecisionKind line
      ∧ calculateDecisionComplexity line = amendedDecisionWeight line := by
  intro line
  constructor
  · unfold getDecisionType amendedDecisionKind kindRules
    cases h1 : strIncludes line "if " <;>
      cases h2 : strIncludes line "switch" <;>
      cases h3 : strIncludes line "for " <;>
      cases h4 : strIncludes line "while " <;>
      cases h5 : strIncludes line "?" <;>
      cases h6 : strIncludes line "&&" <;>
      cases h7 : strIncludes line "||" <;>
      simp [List.find?, h1, h2, h3, h4, h5, h6, h7]
  · unfold calculateDecisionComplexity amendedDecisionWeight
    push_cast
    ring

/-- C8 counterexample: for the empty analysis the function-level local
generator emits no node declarations at all, in particular no result
node and no user-entry node, contradicting the claim that the diagram
holds default entry and result nodes. -/
theorem C8_empty_dir_cex :
    ((generateLocalFunctionFlowchart emptyFA).data.contains '[') = false
    ∧ strIncludes (generateLocalFunctionFlowchart emptyFA) "Process results" = false
    ∧ strIncludes (generateLocalFunctionFlowchart emptyFA) "User triggers" = false := by
  refine ⟨by decide, by decide, by decide⟩

/-- C8 (amended): for an empty run the repository-level local generator
emits exactly the default entry, activation and result nodes with no
decision node and no subgraph, while the function-level generator emits
no nodes at all, only the header comment, the empty layer section, and
the styling block. -/
theorem C8_empty_dir_diagram :
    strIncludes (generateLocalFlowchart emptyAD) "[User opens VSCode extension]" = true
    ∧ strIncludes (generateLocalFlowchart emptyAD) "[Extension activation]" = true
    ∧ strIncludes (generateLocalFlowchart emptyAD) "[Generate flowchart result]" = true
    ∧ ((generateLocalFlowchart emptyAD).data.contains '\x7b') = false
    ∧ strIncludes (generateLocalFlowchart emptyAD) "subgraph" = false
    ∧ ((generateLocalFunctionFlowchart emptyFA).data.contains '[') = false
    ∧ ((generateLocalFunctionFlowchart emptyFA).data.contains '\x7b') = false
    ∧ strIncludes (generateLocalFunctionFlowchart emptyFA) "subgraph" = false := by
  refine ⟨by decide, by decide, by decide, by decide, by decide, by decide,
    by decide, by decide⟩

/-- An unreadable directory contributes nothing: its listing throws,
the handler logs and returns. -/
theorem walkDir_unreadable (p : String) (l : Nat) (es : List FSEntry) :
    walkDir p l false es = [] := by
  unfold walkDir
  split <;> simp

/-- Every file the walk emits from a list of entries lies within
5 - level further directory listings. -/
theorem walkEntries_sub_aux :
    ∀ (n : Nat) (es : List FSEntry), sizeOf es ≤ n →
      ∀ (p : String) (level : Nat) (x : String),
        x ∈ walkEntries p level es → x ∈ filesWithin p (5 - level) es := by
  intro n
  induction n with
  | zero =>
    intro es h
    cases es with
    | nil =>
      intro p level x hx
      simp [walkEntries] at hx
    | cons e rest =>
      exfalso
      cases e <;> simp at h
  | succ m ih =>
    intro es hsz p level x hx
    cases es with
    | nil => simp [walkEntries] at hx
    | cons e rest =>
      have hrest : sizeOf rest ≤ m := by
        cases e <;> simp at hsz <;> omega
      cases e with
      | file nm =>
        simp only [walkEntries] at hx
        rcases List.mem_append.mp hx with h1 | h2
        · simp only [filesWithin]
          split_ifs at h1 <;> simp at h1
          simp [h1]
        · simp only [filesWithin]
          exact List.mem_cons_of_mem _ (ih rest hrest p level x h2)
      | dir nm r es' =>
        have hes' : sizeOf es' ≤ m := by
          simp at hsz
          omega
        simp only [walkEntries] at hx
        rcases List.mem_append.mp hx with h1 | h2
        · by_cases hig : shouldIgnore nm = true
          · simp [hig] at h1
          · rw [if_neg (by simp [hig])] at h1
            unfold walkDir at h1
            by_cases hl : level + 1 > 5
            · simp [hl] at h1
            · rw [if_neg hl] at h1
              cases r with
              | false => simp at h1
              | true =>
                rw [if_pos rfl] at h1
                have hmem := ih es' hes' (p ++ "/" ++ nm) (level + 1) x h1
                have h5 : 5 - level = (5 - (level + 1)) + 1 := by omega
                rw [h5]
                simp only [filesWithin]
                exact List.mem_append.mpr (Or.inl hmem)
        · have hr := ih rest hrest p level x h2
          cases hk : 5 - level with
          | zero =>
            rw [hk] at hr
            simp only [filesWithin]
            exact List.mem_append.mpr (Or.inr hr)
          | succ k' =>
            rw [hk] at hr
            simp only [filesWithin]
            exact List.mem_append.mpr (Or.inr hr)

/-- C7: the walk never descends past level 5 and treats deeper levels
as empty rather than erring, every emitted file lies within five
directory listings of the root, and an unreadable directory among the
entries is skipped while the remaining entries are still scanned. -/
theorem C7_walk_depth_cap :
    (∀ (p : String) (level : Nat) (r : Bool) (es : List FSEntry),
        level > 5 → walkDir p level r es = [])
    ∧ (∀ (n : String) (r : Bool) (es : List FSEntry) (x : String),
        x ∈ walkDirectoryRoot (.dir n r es) → x ∈ filesWithin n 5 es)
    ∧ (∀ (p : String) (level : Nat) (es1 es2 : List FSEntry) (n : String)
        (bad : List FSEntry),
        walkEntries p level (es1 ++ FSEntry.dir n false bad :: es2)
          = walkEntries p level (es1 ++ es2)) := by
  refine ⟨?_, ?_, ?_⟩
  · intro p level r es h
    unfold walkDir
    simp [h]
  · intro n r es x hx
    unfold walkDirectoryRoot walkDir at hx
    simp only [Nat.zero_lt_succ, if_neg (by omega : ¬ (0 : Nat) > 5)] at hx
    cases r with
    | false => simp at hx
    | true =>
      rw [if_pos rfl] at hx
      have := walkEntries_sub_aux (sizeOf es) es le_rfl n 0 x hx
      simpa using this
  · intro p level es1 es2 n bad
    induction es1 with
    | nil =>
      by_cases h : shouldIgnore n = true <;>
        simp [walkEntries, walkDir_unreadable, h]
    | cons e es1 ih =>
      cases e <;> simp [walkEntries, ih]

/-- C7 witness: a directory entered above the cap yields nothing, a
root-level file lies within the reference bound, and a locked
subdirectory is skipped without losing its sibling. -/
theorem C7_walk_depth_cap_w :
    walkDir "root" 6 true [FSEntry.file "deep.js"] = []
    ∧ walkEntries "r" 0 ([FSEntry.file "a.js"]
        ++ FSEntry.dir "locked" false [FSEntry.file "b.js"] :: [])
        = walkEntries "r" 0 ([FSEntry.file "a.js"] ++ []) := by
  refine ⟨C7_walk_depth_cap.1 "root" 6 true [FSEntry.file "deep.js"] (by omega),
    C7_walk_depth_cap.2.2 "r" 0 [FSEntry.file "a.js"] [] "locked"
      [FSEntry.file "b.js"]⟩

/-- Stable insertion permutes: the inserted element joins the rest. -/
theorem jsInsert_perm {α : Type} (le : α → α → Bool) (a : α) (l : List α) :
    (jsInsert le a l).Perm (a :: l) := by
  induction l with
  | nil => exact List.Perm.refl _
  | cons b t ih =>
    unfold jsInsert
    by_cases h : le a b
    · rw [if_pos h]
    · rw [if_neg h]
      exact (ih.cons b).trans (List.Perm.swap a b t)

/-- The stable sort permutes its input. -/
theorem jsSort_perm {α : Type} (le : α → α → Bool) (l : List α) :
    (jsSort le l).Perm l := by
  induction l with
  | nil => exact List.Perm.refl _
  | cons a t ih =>
    unfold jsSort
    exact (jsInsert_perm le a (jsSort le t)).trans (ih.cons a)

/-- A list head obtained through head? is a member. -/
theorem mem_of_head?_eq {α : Type} {l : List α} {a : α} (h : l.head? = some a) :
    a ∈ l := by
  cases l with
  | nil => simp at h
  | cons b t =>
    simp at h
    exact h ▸ List.mem_cons_self b t

/-- Replacing the value at a key leaves the key sequence unchanged. -/
theorem replace_keys_eq {α : Type} (m : List (String × α)) (k : String) (v : α) :
    (m.map (fun p => if p.1 = k then (k, v) else p)).map Prod.fst
      = m.map Prod.fst := by
  rw [List.map_map]
  apply List.map_congr_left
  intro p _
  by_cases hp : p.1 = k <;> simp [hp]

/-- Key membership after a JS Map set. -/
theorem jsMapInsert_keys_mem {α : Type} (m : List (String × α)) (k : String)
    (v : α) (q : String) :
    q ∈ (jsMapInsert m k v).map Prod.fst ↔ q ∈ m.map Prod.fst ∨ q = k := by
  unfold jsMapInsert
  by_cases h : m.any (fun p => p.1 = k)
  · rw [if_pos h, replace_keys_eq]
    constructor
    · exact Or.inl
    · rintro (h1 | rfl)
      · exact h1
      · rcases List.any_eq_true.mp h with ⟨p, hp, hpk⟩
        simp at hpk
        exact List.mem_map.mpr ⟨p, hp, hpk⟩
  · rw [if_neg h, List.map_append]
    simp

/-- A JS Map set preserves distinctness of the keys. -/
theorem jsMapInsert_keys_nodup {α : Type} (m : List (String × α)) (k : String)
    (v : α) (h : (m.map Prod.fst).Nodup) :
    ((jsMapInsert m k v).map Prod.fst).Nodup := by
  unfold jsMapInsert
  by_cases ha : m.any (fun p => p.1 = k)
  · rw [if_pos ha, replace_keys_eq]
    exact h
  · rw [if_neg ha, List.map_append]
    apply List.nodup_append.mpr
    refine ⟨h, by simp, ?_⟩
    intro x hx hxk
    simp at hxk
    rcases List.mem_map.mp hx with ⟨p, hp, hpk⟩
    have ha' : m.any (fun p => p.1 = k) = false := by
      simp only [Bool.not_eq_true] at ha
      exact ha
    have h2 := List.any_eq_false.mp ha' p hp
    simp at h2
    exact h2 (hpk.trans hxk)

/-- Every pair of the updated map is the fresh pair or an original one. -/
theorem mem_jsMapInsert {α : Type} (m : List (String × α)) (k : String) (v : α)
    (p : String × α) (hp : p ∈ jsMapInsert m k v) : p = (k, v) ∨ p ∈ m := by
  unfold jsMapInsert at hp
  by_cases ha : m.any (fun p => p.1 = k)
  · rw [if_pos ha] at hp
    rcases List.mem_map.mp hp with ⟨q, hq, hpq⟩
    by_cases hqk : q.1 = k
    · rw [if_pos hqk] at hpq
      exact Or.inl hpq.symm
    · rw [if_neg hqk] at hpq
      exact Or.inr (hpq ▸ hq)
  · rw [if_neg ha] at hp
    rcases List.mem_append.mp hp with h | h
    · exact Or.inr h
    · exact Or.inl (List.mem_singleton.mp h)

/-- Finding the set key after an in-place replace yields the new pair. -/
theorem find_replace_self {α : Type} (m : List (String × α)) (k : String) (v : α)
    (h : m.any (fun p => p.1 = k) = true) :
    (m.map (fun p => if p.1 = k then (k, v) else p)).find? (fun p => p.1 == k)
      = some (k, v) := by
  induction m with
  | nil => simp at h
  | cons q m ih =>
    rw [List.map_cons]
    by_cases hq : q.1 = k
    · rw [if_pos hq]
      exact List.find?_cons_of_pos _ (by simp)
    · rw [if_neg hq, List.find?_cons_of_neg _ (by simp [hq])]
      apply ih
      rw [List.any_cons] at h
      simpa [hq] using h

/-- Finding another key is unaffected by an in-place replace. -/
theorem find_replace_other {α : Type} (m : List (String × α)) (k : String) (v : α)
    (q : String) (hqk : q ≠ k) :
    (m.map (fun p => if p.1 = k then (k, v) else p)).find? (fun p => p.1 == q)
      = m.find? (fun p => p.1 == q) := by
  induction m with
  | nil => rfl
  | cons r m ih =>
    rw [List.map_cons]
    by_cases hr : r.1 = k
    · rw [if_pos hr, List.find?_cons_of_neg _ (by simp [Ne.symm hqk]),
        List.find?_cons_of_neg _ (by simp [hr, Ne.symm hqk]), ih]
    · rw [if_neg hr]
      by_cases hrq : r.1 = q
      · rw [List.find?_cons_of_pos _ (by simp [hrq]),
          List.find?_cons_of_pos _ (by simp [hrq])]
      · rw [List.find?_cons_of_neg _ (by simp [hrq]),
          List.find?_cons_of_neg _ (by simp [hrq]), ih]

/-- Finding skips a prefix where nothing matches. -/
theorem find?_append_of_none {β : Type} (l1 l2 : List β) (p : β → Bool)
    (h : l1.find? p = none) : (l1 ++ l2).find? p = l2.find? p := by
  induction l1 with
  | nil => rfl
  | cons a l1 ih =>
    cases hpa : p a with
    | true =>
      rw [List.find?_cons_of_pos _ hpa] at h
      exact absurd h (by simp)
    | false =>
      rw [List.find?_cons_of_neg _ (by simp [hpa])] at h
      rw [List.cons_append, List.find?_cons_of_neg _ (by simp [hpa])]
      exact ih h

/-- After a JS Map set, the set key maps to the set value. -/
theorem find_jsMapInsert_self {α : Type} (m : List (String × α)) (k : String)
    (v : α) :
    (jsMapInsert m k v).find? (fun p => p.1 == k) = some (k, v) := by
  unfold jsMapInsert
  by_cases ha : m.any (fun p => p.1 = k)
  · rw [if_pos ha]
    exact find_replace_self m k v (by simpa using ha)
  · rw [if_neg ha]
    have hn : m.find? (fun p => p.1 == k) = none := by
      apply List.find?_eq_none.mpr
      intro p hp
      have ha' : m.any (fun p => p.1 = k) = false := by
        simp only [Bool.not_eq_true] at ha
        exact ha
      have h2 := List.any_eq_false.mp ha' p hp
      simpa using h2
    rw [find?_append_of_none _ _ _ hn]
    exact List.find?_cons_of_pos _ (by simp)

/-- Appending one non-matching element does not change what is found. -/
theorem find?_append_single_of_neg {β : Type} (l : List β) (x : β)
    (p : β → Bool) (h : p x = false) : (l ++ [x]).find? p = l.find? p := by
  induction l with
  | nil =>
    rw [List.nil_append, List.find?_cons_of_neg _ (by simp [h]), List.find?_nil]
  | cons a l ih =>
    cases hpa : p a with
    | true =>
      rw [List.cons_append, List.find?_cons_of_pos _ hpa,
        List.find?_cons_of_pos _ hpa]
    | false =>
      rw [List.cons_append, List.find?_cons_of_neg _ (by simp [hpa]),
        List.find?_cons_of_neg _ (by simp [hpa])]
      exact ih

/-- After a JS Map set, every other key maps as before. -/
theorem find_jsMapInsert_other {α : Type} (m : List (String × α)) (k : String)
    (v : α) (q : String) (hqk : q ≠ k) :
    (jsMapInsert m k v).find? (fun p => p.1 == q)
      = m.find? (fun p => p.1 == q) := by
  unfold jsMapInsert
  by_cases ha : m.any (fun p => p.1 = k)
  · rw [if_pos ha]
    exact find_replace_other m k v q hqk
  · rw [if_neg ha]
    exact find?_append_single_of_neg m (k, v) _ (by simp [Ne.symm hqk])

/-- In a map with distinct keys, a member pair is found at its key. -/
theorem find_of_mem_nodup_keys {α : Type} :
    ∀ (m : List (String × α)) (p : String × α), p ∈ m →
      (m.map Prod.fst).Nodup → m.find? (fun q => q.1 == p.1) = some p := by
  intro m
  induction m with
  | nil => intro p hp; simp at hp
  | cons q m ih =>
    intro p hp hnd
    rw [List.map_cons, List.nodup_cons] at hnd
    rcases List.mem_cons.mp hp with rfl | hp'
    · exact List.find?_cons_of_pos _ (by simp)
    · have hq1 : q.1 ≠ p.1 := by
        intro he
        exact hnd.1 (he ▸ List.mem_map.mpr ⟨p, hp', rfl⟩)
      rw [List.find?_cons_of_neg _ (by simp [hq1])]
      exact ih p hp' hnd.2

/-- The name-keyed deduplication map: key membership is name membership. -/
theorem nameKeyedMap_mem_keys :
    ∀ (l : List FunctionRecord) (m : List (String × FunctionRecord)) (k : String),
      k ∈ (List.foldl (fun m f => jsMapInsert m f.name f) m l).map Prod.fst
        ↔ k ∈ m.map Prod.fst ∨ k ∈ l.map (·.name) := by
  intro l
  induction l with
  | nil => intro m k; simp
  | cons f l ih =>
    intro m k
    rw [List.foldl_cons, ih]
    rw [jsMapInsert_keys_mem]
    simp only [List.map_cons, List.mem_cons]
    tauto

/-- The name-keyed deduplication map keeps its keys distinct. -/
theorem nameKeyedMap_keys_nodup :
    ∀ (l : List FunctionRecord) (m : List (String × FunctionRecord)),
      (m.map Prod.fst).Nodup →
      ((List.foldl (fun m f => jsMapInsert m f.name f) m l).map Prod.fst).Nodup := by
  intro l
  induction l with
  | nil => intro m h; exact h
  | cons f l ih =>
    intro m h
    rw [List.foldl_cons]
    exact ih _ (jsMapInsert_keys_nodup m f.name f h)

/-- Every pair of the name-keyed map is keyed by its record's name. -/
theorem nameKeyedMap_coherent :
    ∀ (l : List FunctionRecord) (m : List (String × FunctionRecord)),
      (∀ p ∈ m, (p.2 : FunctionRecord).name = p.1) →
      ∀ p ∈ List.foldl (fun m f => jsMapInsert m f.name f) m l,
        (p.2 : FunctionRecord).name = p.1 := by
  intro l
  induction l with
  | nil => intro m hm p hp; exact hm p hp
  | cons f l ih =>
    intro m hm p hp
    rw [List.foldl_cons] at hp
    refine ih _ ?_ p hp
    intro q hq
    rcases mem_jsMapInsert _ _ _ q hq with rfl | hq'
    · rfl
    · exact hm q hq'

/-- The name-keyed map holds, for each name, the last record with that
name among the folded records. -/
theorem find_foldl_lastWins :
    ∀ (l : List FunctionRecord) (m : List (String × FunctionRecord)) (k : String),
      (List.foldl (fun m f => jsMapInsert m f.name f) m l).find?
          (fun p => p.1 == k)
        = match (l.filter (fun f => f.name == k)).getLast? with
          | some g => some (k, g)
          | none => m.find? (fun p => p.1 == k) := by
  intro l
  induction l using List.reverseRecOn with
  | nil => intro m k; simp
  | append_singleton l f ih =>
    intro m k
    rw [List.foldl_append, List.foldl_cons, List.foldl_nil, List.filter_append]
    by_cases hf : f.name = k
    · rw [show (List.filter (fun f => f.name == k) [f]) = [f] from by simp [hf]]
      rw [List.getLast?_concat]
      rw [show k = f.name from hf.symm]
      exact find_jsMapInsert_self _ f.name f
    · rw [show (List.filter (fun f => f.name == k) [f]) = [] from by simp [hf]]
      rw [List.append_nil]
      rw [find_jsMapInsert_other _ f.name f k (Ne.symm hf)]
      exact ih m k

/-- Each element contributed by one backfill step was already selected
or belongs to that step's layer list. -/
theorem mem_selectStep (cov : List String) (sel : List FunctionRecord)
    (pr : String × List FunctionRecord) (x : FunctionRecord)
    (hx : x ∈ selectStep cov sel pr) : x ∈ sel ∨ x ∈ pr.2 := by
  unfold selectStep at hx
  split at hx
  · split at hx
    · rename_i rep hh
      split at hx
      · rcases List.mem_append.mp hx with h | h
        · exact Or.inl h
        · right
          rw [List.mem_singleton.mp h]
          exact ((jsSort_perm byImportanceDesc pr.2).mem_iff).mp
            (mem_of_head?_eq hh)
      · exact Or.inl hx
    · exact Or.inl hx
  · exact Or.inl hx

/-- The backfill loop only ever appends. -/
theorem sel_subset_selectStep (cov : List String) (sel : List FunctionRecord)
    (pr : String × List FunctionRecord) (x : FunctionRecord) (hx : x ∈ sel) :
    x ∈ selectStep cov sel pr := by
  unfold selectStep
  split
  · split
    · split
      · exact List.mem_append.mpr (Or.inl hx)
      · exact hx
    · exact hx
  · exact hx

/-- Whatever the starting selection holds survives the backfill loop. -/
theorem acc_subset_selectLoop (cov : List String) :
    ∀ (layers : List (String × List FunctionRecord)) (acc : List FunctionRecord)
      (x : FunctionRecord), x ∈ acc → x ∈ layers.foldl (selectStep cov) acc := by
  intro layers
  induction layers with
  | nil => intro acc x h; exact h
  | cons pr layers ih =>
    intro acc x h
    rw [List.foldl_cons]
    exact ih _ x (sel_subset_selectStep cov acc pr x h)

/-- Everything the backfill loop returns was initially selected or lies
in one of the layer lists. -/
theorem mem_selectLoop (cov : List String) :
    ∀ (layers : List (String × List FunctionRecord)) (acc : List FunctionRecord)
      (x : FunctionRecord), x ∈ layers.foldl (selectStep cov) acc →
      x ∈ acc ∨ ∃ pr ∈ layers, x ∈ pr.2 := by
  intro layers
  induction layers with
  | nil => intro acc x h; exact Or.inl h
  | cons pr layers ih =>
    intro acc x h
    rw [List.foldl_cons] at h
    rcases ih _ x h with h1 | ⟨pr', hpr', hx⟩
    · rcases mem_selectStep cov acc pr x h1 with h2 | h2
      · exact Or.inl h2
      · exact Or.inr ⟨pr, List.mem_cons_self _ _, h2⟩
    · exact Or.inr ⟨pr', List.mem_cons_of_mem _ hpr', hx⟩

/-- Every member of a layer list of the classifier is an analyzed
record. -/
theorem mem_identifyLayers (fns : List FunctionRecord)
    (pr : String × List FunctionRecord)
    (hpr : pr ∈ identifyArchitecturalPatterns fns) (x : FunctionRecord)
    (hx : x ∈ pr.2) : x ∈ fns := by
  unfold identifyArchitecturalPatterns at hpr
  simp only [List.mem_cons, List.not_mem_nil, or_false] at hpr
  rcases hpr with rfl | rfl | rfl | rfl | rfl | rfl | rfl
  all_goals exact (List.mem_filter.mp hx).1

/-- C1 counterexample: ten distinct plainly named functions leave every
layer list empty, so the backfill adds nothing to the top 8 and the
Selector returns 8 records, not min(12, 10) = 10. -/
theorem C1_selection_cex :
    cexFnsC1.length = 10
    ∧ (getImportantFunctions cexFnsC1 (identifyArchitecturalPatterns cexFnsC1)).length = 8
    ∧ min 12 cexFnsC1.length = 10 := by
  refine ⟨by decide, by decide, by decide⟩

/-- C1 (amended): the Selector never returns more than 12 records; the
lower bound min(12, total) is not guaranteed in general, but it holds
whenever at most 8 functions exist and their names are distinct, since
then the top-8 phase already selects everything. -/
theorem C1_selection_bound :
    ∀ fns : List FunctionRecord,
      (getImportantFunctions fns (identifyArchitecturalPatterns fns)).length ≤ 12
      ∧ (fns.length ≤ 8 → (fns.map (·.name)).Nodup →
          (getImportantFunctions fns (identifyArchitecturalPatterns fns)).length
            = min 12 fns.length) := by
  intro fns
  constructor
  · unfold getImportantFunctions
    rw [List.length_take]
    exact inf_le_left
  · intro h8 hnd
    have hperm : (sortedByImportance fns).Perm fns := jsSort_perm _ _
    have htop : topFunctions fns = sortedByImportance fns := by
      unfold topFunctions
      exact List.take_of_length_le (by rw [hperm.length_eq]; omega)
    have hSsub : ∀ x ∈ selectedFunctions fns (identifyArchitecturalPatterns fns),
        x ∈ fns := by
      intro x hx
      unfold selectedFunctions at hx
      rcases mem_selectLoop _ _ _ x hx with h | ⟨pr, hpr, hxpr⟩
      · rw [htop] at h
        exact hperm.mem_iff.mp h
      · exact mem_identifyLayers fns pr hpr x hxpr
    have hfnsS : ∀ x ∈ fns,
        x ∈ selectedFunctions fns (identifyArchitecturalPatterns fns) := by
      intro x hx
      unfold selectedFunctions
      apply acc_subset_selectLoop
      rw [htop]
      exact hperm.mem_iff.mpr hx
    have hnames : ∀ k,
        k ∈ (nameKeyedMap (selectedFunctions fns (identifyArchitecturalPatterns fns))).map Prod.fst
          ↔ k ∈ fns.map (·.name) := by
      intro k
      unfold nameKeyedMap
      rw [nameKeyedMap_mem_keys]
      simp only [List.map_nil, List.not_mem_nil, false_or]
      constructor
      · intro h
        rcases List.mem_map.mp h with ⟨f, hf, rfl⟩
        exact List.mem_map.mpr ⟨f, hSsub f hf, rfl⟩
      · intro h
        rcases List.mem_map.mp h with ⟨f, hf, rfl⟩
        exact List.mem_map.mpr ⟨f, hfnsS f hf, rfl⟩
    have hkeysnd :
        ((nameKeyedMap (selectedFunctions fns (identifyArchitecturalPatterns fns))).map Prod.fst).Nodup := by
      unfold nameKeyedMap
      exact nameKeyedMap_keys_nodup _ [] (by simp)
    have hcount :
        (nameKeyedMap (selectedFunctions fns (identifyArchitecturalPatterns fns))).length
          = fns.length := by
      have h1 := List.toFinset_card_of_nodup hkeysnd
      have h2 := List.toFinset_card_of_nodup hnd
      have h3 :
          ((nameKeyedMap (selectedFunctions fns (identifyArchitecturalPatterns fns))).map Prod.fst).toFinset
            = (fns.map (·.name)).toFinset := by
        apply Finset.ext
        intro a
        rw [List.mem_toFinset, List.mem_toFinset]
        exact hnames a
      rw [h3, h2] at h1
      rw [List.length_map] at h1
      rw [List.length_map] at h1
      exact h1.symm
    unfold getImportantFunctions uniqueByName jsMapValues
    rw [List.length_take, List.length_map, hcount]

/-- C1 witness: with three distinct plainly named functions the
Selector returns exactly min(12, 3) = 3 records. -/
theorem C1_selection_bound_w :
    (getImportantFunctions w1FnsC1 (identifyArchitecturalPatterns w1FnsC1)).length
      = min 12 w1FnsC1.length :=
  (C1_selection_bound w1FnsC1).2 (by decide) (by decide)

/-- C9: the Selector's output never holds two records with the same
name, and every record it returns is the last record with its name
among the selected list, since the deduplicating JS Map is keyed on the
name alone and a later set replaces the value. -/
theorem C9_dedup_by_name :
    ∀ (fns : List FunctionRecord) (layers : List (String × List FunctionRecord)),
      ((getImportantFunctions fns layers).map (·.name)).Nodup
      ∧ ∀ g ∈ getImportantFunctions fns layers,
          ((selectedFunctions fns layers).filter
            (fun f => f.name == g.name)).getLast? = some g := by
  intro fns layers
  have hkeysnd :
      ((nameKeyedMap (selectedFunctions fns layers)).map Prod.fst).Nodup := by
    unfold nameKeyedMap
    exact nameKeyedMap_keys_nodup _ [] (by simp)
  have hco : ∀ p ∈ nameKeyedMap (selectedFunctions fns layers),
      (p.2 : FunctionRecord).name = p.1 := by
    unfold nameKeyedMap
    exact nameKeyedMap_coherent _ [] (by simp)
  constructor
  · have hvalnames :
        (uniqueByName (selectedFunctions fns layers)).map (·.name)
          = (nameKeyedMap (selectedFunctions fns layers)).map Prod.fst := by
      unfold uniqueByName jsMapValues
      rw [List.map_map]
      apply List.map_congr_left
      intro p hp
      exact hco p hp
    unfold getImportantFunctions
    have hsub :
        (((uniqueByName (selectedFunctions fns layers)).take 12).map (·.name)).Sublist
          ((uniqueByName (selectedFunctions fns layers)).map (·.name)) :=
      (List.take_sublist _ _).map _
    exact List.Nodup.sublist hsub (hvalnames ▸ hkeysnd)
  · intro g hg
    unfold getImportantFunctions at hg
    have hg' := List.mem_of_mem_take hg
    unfold uniqueByName jsMapValues at hg'
    rcases List.mem_map.mp hg' with ⟨p, hp, rfl⟩
    have hcp := hco p hp
    have hfind := find_of_mem_nodup_keys (nameKeyedMap (selectedFunctions fns layers))
      p hp hkeysnd
    have hlast := find_foldl_lastWins (selectedFunctions fns layers) [] p.1
    rw [show List.foldl (fun m f => jsMapInsert m f.name f) []
          (selectedFunctions fns layers)
        = nameKeyedMap (selectedFunctions fns layers) from rfl] at hlast
    rw [hfind] at hlast
    rw [hcp]
    cases hgl : ((selectedFunctions fns layers).filter
        (fun f => f.name == p.1)).getLast? with
    | none =>
      rw [hgl] at hlast
      simp at hlast
    | some gl =>
      rw [hgl] at hlast
      simp at hlast
      rw [hlast]

/-- C9 witness: of two same-named functions in different files, the one
ordered last among the selected is the one the output retains. -/
theorem C9_dedup_by_name_w :
    ((selectedFunctions dupFnsC9 (identifyArchitecturalPatterns dupFnsC9)).filter
      (fun f => f.name == dupSurvivor.name)).getLast? = some dupSurvivor :=
  (C9_dedup_by_name dupFnsC9 (identifyArchitecturalPatterns dupFnsC9)).2
    dupSurvivor (by decide)

/-- Appending a method leaves the key sequence unchanged. -/
theorem pushMethod_keys (m : List (String × PClassRecord)) (cn fname : String) :
    (pushMethod m cn fname).map Prod.fst = m.map Prod.fst := by
  unfold pushMethod
  rw [List.map_map]
  apply List.map_congr_left
  intro p _
  by_cases hp : p.1 = cn <;> simp [hp]

/-- Finding the open class after a method push yields the record with
the method appended. -/
theorem find_pushMethod (m : List (String × PClassRecord)) (cn fname : String) :
    (pushMethod m cn fname).find? (fun p => p.1 == cn)
      = (m.find? (fun p => p.1 == cn)).map
          (fun p => (p.1, { p.2 with methods := p.2.methods ++ [fname] })) := by
  induction m with
  | nil => rfl
  | cons q m ih =>
    by_cases hq : q.1 = cn
    · simp [pushMethod, List.find?, hq]
    · simp only [pushMethod, List.map_cons, if_neg hq]
      rw [List.find?_cons_of_neg _ (by simp [hq]),
        List.find?_cons_of_neg _ (by simp [hq])]
      simpa [pushMethod] using ih

/-- One scan line preserves distinctness of the registry keys. -/
theorem stepLine_keys_nodup (file : String) (i : Nat) (st : ScanState)
    (l : ScanLine) (h : (st.classes.map Prod.fst).Nodup) :
    (((stepLine file i st l).classes).map Prod.fst).Nodup := by
  cases hcd : l.classDecl with
  | none =>
    cases hfd : l.funcDecl with
    | none => simpa [stepLine, hcd, hfd] using h
    | some fname =>
      cases hcc : st.currentClass with
      | none => simpa [stepLine, hcd, hfd, hcc] using h
      | some cn =>
        simp only [stepLine, hcd, hfd, hcc]
        rw [pushMethod_keys]
        exact h
  | some nx =>
    cases hfd : l.funcDecl with
    | none =>
      simp only [stepLine, hcd, hfd]
      exact jsMapInsert_keys_nodup _ _ _ h
    | some fname =>
      simp only [stepLine, hcd, hfd]
      rw [pushMethod_keys]
      exact jsMapInsert_keys_nodup _ _ _ h

/-- A file scan preserves distinctness of the registry keys. -/
theorem scanFileLines_keys_nodup (file : String) :
    ∀ (lines : List ScanLine) (i : Nat) (st : ScanState),
      (st.classes.map Prod.fst).Nodup →
      (((scanFileLines file i st lines).classes).map Prod.fst).Nodup := by
  intro lines
  induction lines with
  | nil => intro i st h; exact h
  | cons l lines ih =>
    intro i st h
    simp only [scanFileLines]
    exact ih _ _ (stepLine_keys_nodup file i st l h)

/-- C10: across an entire analysis run the class registry holds at most
one record per class name; registering a class name again installs a
fresh record for it, whatever was stored before; and a method found
while a class context is open is appended to the registry record at the
open context's name, which by the previous part is the most recently
registered record of that name. -/
theorem C10_class_registry :
    (∀ files : List (String × List ScanLine),
        ((scanFiles files).map Prod.fst).Nodup)
    ∧ (∀ (file : String) (i : Nat) (st : ScanState) (n : String) (ex : Bool),
        ((stepLine file i st { classDecl := some (n, ex), funcDecl := none }).classes).find?
            (fun p => p.1 == n)
          = some (n, { name := n, file := file, line := i, methods := [],
                       isExported := ex }))
    ∧ (∀ (file : String) (i : Nat) (st : ScanState) (fname cn : String)
        (old : PClassRecord),
        st.currentClass = some cn →
        st.classes.find? (fun p => p.1 == cn) = some (cn, old) →
        ((stepLine file i st { classDecl := none, funcDecl := some fname }).classes).find?
            (fun p => p.1 == cn)
          = some (cn, { old with methods := old.methods ++ [fname] })) := by
  refine ⟨?_, ?_, ?_⟩
  · have haux : ∀ (files : List (String × List ScanLine))
        (m : List (String × PClassRecord)), (m.map Prod.fst).Nodup →
        ((files.foldl scanFile m).map Prod.fst).Nodup := by
      intro files
      induction files with
      | nil => intro m h; exact h
      | cons f files ih =>
        intro m h
        rw [List.foldl_cons]
        exact ih _ (scanFileLines_keys_nodup f.1 f.2 1 ⟨m, none⟩ h)
    intro files
    exact haux files [] (by simp)
  · intro file i st n ex
    simp only [stepLine]
    exact find_jsMapInsert_self _ _ _
  · intro file i st fname cn old hcc hfind
    simp only [stepLine, hcc]
    rw [find_pushMethod, hfind]
    rfl

/-- C10 witness: with class A open and registered, a method line
appends to A's registry record. -/
theorem C10_class_registry_w :
    ((stepLine "a.js" 3 scanStateW
        { classDecl := none, funcDecl := some "m" }).classes).find?
        (fun p => p.1 == "A")
      = some ("A", { name := "A", file := "a.js", line := 1, methods := ["m"],
                     isExported := false }) :=
  C10_class_registry.2.2 "a.js" 3 scanStateW "m" "A"
    { name := "A", file := "a.js", line := 1, methods := [], isExported := false }
    rfl (by decide)

end GraphIt
